import Mathlib

/-!
Verification of the screenshot acquisition-and-transcoding pipeline, the
port-discovery scan and the window-resize command of the
`tauri-plugin-mcp-bridge` crate.

Shallow embedding conventions:

* Byte sequences (`Vec<u8>`) are `List Nat` (each entry a byte value).
* Machine integers (`u32`, `u16`, `u8`) are `Nat`; where overflow matters the
  reduction `% 2 ^ w` is written explicitly.
* Fallible Rust code (`Result<_, E>`) becomes `Except E _`; `Option<T>` becomes
  `Option T`.
* The third-party `image` crate is modelled by the `ImageCrate` structure: a
  bundle of decode / format-detection / encode functions.  An in-memory
  `DynamicImage` is modelled by its dimensions only (`Image`), because no
  claim under verification depends on pixel values — only on dimensions,
  on encoded-format tags and on byte-for-byte identity of the untouched
  paths.  Facts about the real codecs that a claim needs (e.g. "a PNG encode
  of an image decodes back with the same dimensions") appear as explicit
  hypotheses of the theorems, so each theorem states exactly which codec
  behaviour it relies on.
* The geometry of `DynamicImage::resize` (aspect-preserving fit into a
  bounding box) is embedded concretely in `resize_dimensions` /
  `imageResize`, translated from the `image` crate's
  `math/utils.rs::resize_dimensions` and `dynimage.rs::resize` (the
  `fill = false` case), because the spec's resize claims are decided by it.
* `f64` arithmetic (`scale`, ratios, `.round()`) is modelled by exact
  rational arithmetic over `ℚ`; Rust's `f64::round` (half away from zero)
  agrees with Mathlib's `round` (half up) on the non-negative values that
  occur here.
-/

namespace TauriMcp

/-- Encoded image formats the pipeline distinguishes.  `other` stands for any
further format the `image` crate can detect. -/
inductive ImageFormat where
  | png
  | jpeg
  | other
deriving DecidableEq, Repr

/-- An in-memory decoded image (`image::DynamicImage`), abstracted to its
pixel dimensions; no claim depends on pixel contents. -/
structure Image where
  width : Nat
  height : Nat
deriving DecidableEq, Repr

/-- Model of the third-party `image` crate used by `screenshot/mod.rs`:
`load_from_memory` (decode, `None` = decode error), `guess_format`
(format detection from magic bytes), and the PNG / JPEG encoders
(`None` = encode error).  The JPEG encoder takes the quality parameter. -/
structure ImageCrate where
  load_from_memory : List Nat → Option Image
  guess_format : List Nat → Option ImageFormat
  encode_png : Image → Option (List Nat)
  encode_jpeg : Image → Nat → Option (List Nat)

/-- `u32::MAX`. -/
def u32Max : Nat := 4294967295

/-- Translation of the `image` crate's `resize_dimensions(width, height,
nwidth, nheight, false)`: the largest size that fits inside the
`nwidth × nheight` bounding box while preserving aspect ratio, each side
rounded and clamped below to 1, with saturation at `u32::MAX`. -/
def resize_dimensions (width height nwidth nheight : Nat) : Nat × Nat :=
  let wratio : ℚ := (nwidth : ℚ) / (width : ℚ)
  let hratio : ℚ := (nheight : ℚ) / (height : ℚ)
  let ratio : ℚ := min wratio hratio
  let nw : Nat := max (round ((width : ℚ) * ratio)).toNat 1
  let nh : Nat := max (round ((height : ℚ) * ratio)).toNat 1
  if u32Max < nw then
    let ratio2 : ℚ := (u32Max : ℚ) / (width : ℚ)
    (u32Max, max (round ((height : ℚ) * ratio2)).toNat 1)
  else if u32Max < nh then
    let ratio2 : ℚ := (u32Max : ℚ) / (height : ℚ)
    (max (round ((width : ℚ) * ratio2)).toNat 1, u32Max)
  else (nw, nh)

/-- Translation of `image::DynamicImage::resize(nwidth, nheight, filter)`:
identity when the box equals the current dimensions, otherwise
`resize_exact` at the dimensions computed by `resize_dimensions`.  The
resampling filter only affects pixel values, which are abstracted away. -/
def imageResize (img : Image) (nwidth nheight : Nat) : Image :=
  if nwidth = img.width ∧ nheight = img.height then img
  else
    let dims := resize_dimensions img.width img.height nwidth nheight
    ⟨dims.1, dims.2⟩

/-- `ScreenshotError` from `screenshot/mod.rs`. -/
inductive ScreenshotError where
  | PlatformUnsupported
  | CaptureFailed (reason : String)
  | EncodeFailed (reason : String)
  | ResizeFailed (reason : String)
  | Timeout
deriving DecidableEq, Repr

/-- Fold a list of characters as decimal ASCII digits; `none` on any
non-digit. -/
def parseAsciiDigits (cs : List Char) : Option Nat :=
  cs.foldl
    (fun acc c =>
      match acc with
      | none => none
      | some n => if c.isDigit then some (n * 10 + (c.toNat - 48)) else none)
    (some 0)

/-- Model of Rust's `str::parse::<u32>()` (as used on the environment
variable): an optional leading `+`, then one or more ASCII digits, value
within `u32` range; anything else fails. -/
def parse_u32 (s : String) : Option Nat :=
  let cs := s.toList
  let digits :=
    match cs with
    | '+' :: rest => rest
    | _ => cs
  if digits = [] then none
  else
    match parseAsciiDigits digits with
    | some n => if n ≤ u32Max then some n else none
    | none => none

/-- Translation of `get_effective_max_width`: explicit parameter first, then
the `TAURI_MCP_SCREENSHOT_MAX_WIDTH` environment variable parsed as `u32`,
else `none`.  `envMaxWidth` models `env::var(ENV_MAX_WIDTH).ok()`. -/
def get_effective_max_width (param : Option Nat) (envMaxWidth : Option String) :
    Option Nat :=
  if param.isSome then param
  else envMaxWidth.bind parse_u32

/-- Translation of `convert_to_jpeg`: decode the PNG bytes, re-encode as JPEG
at the given quality; failures map to `EncodeFailed`. -/
def convert_to_jpeg (c : ImageCrate) (png_data : List Nat) (quality : Nat) :
    Except ScreenshotError (List Nat) :=
  match c.load_from_memory png_data with
  | none => .error (.EncodeFailed "Failed to decode PNG")
  | some img =>
    match c.encode_jpeg img quality with
    | none => .error (.EncodeFailed "Failed to encode JPEG")
    | some out => .ok out

/-- Translation of `resize_if_needed`: decode, return the input bytes
unchanged when `current_width <= max_width`, otherwise compute
`scale = max_width / current_width` and
`new_height = round(current_height * scale)` (modelled over `ℚ`,
`as u32` = `Int.toNat` on these non-negative values), resample via
`DynamicImage::resize` and re-encode as PNG. -/
def resize_if_needed (c : ImageCrate) (data : List Nat) (max_width : Nat) :
    Except ScreenshotError (List Nat) :=
  match c.load_from_memory data with
  | none => .error (.ResizeFailed "Failed to decode image")
  | some img =>
    if img.width ≤ max_width then .ok data
    else
      let scale : ℚ := (max_width : ℚ) / (img.width : ℚ)
      let new_height : Nat := (round ((img.height : ℚ) * scale)).toNat
      let resized := imageResize img max_width new_height
      match c.encode_png resized with
      | none => .error (.ResizeFailed "Failed to encode PNG")
      | some out => .ok out

/-- Translation of `convert_format`: `"png"` requests return the data as-is,
anything else goes through `convert_to_jpeg`. -/
def convert_format (c : ImageCrate) (data : List Nat) (format : String)
    (quality : Nat) : Except ScreenshotError (List Nat) :=
  if format = "png" then .ok data
  else convert_to_jpeg c data quality

/-- Character `n` of the standard base64 alphabet. -/
def b64Char (n : Nat) : Char :=
  "ABCDEFGHIJKLMNOPQRSTUVWXYZabcdefghijklmnopqrstuvwxyz0123456789+/".toList.getD n 'A'

/-- Standard base64 with padding (`base64::engine::general_purpose::STANDARD`),
on bytes grouped in threes. -/
def base64Core : List Nat → List Char
  | [] => []
  | [b1] => [b64Char (b1 / 4), b64Char (b1 % 4 * 16), '=', '=']
  | [b1, b2] =>
    [b64Char (b1 / 4), b64Char (b1 % 4 * 16 + b2 / 16), b64Char (b2 % 16 * 4), '=']
  | b1 :: b2 :: b3 :: rest =>
    b64Char (b1 / 4) :: b64Char (b1 % 4 * 16 + b2 / 16) ::
      b64Char (b2 % 16 * 4 + b3 / 64) :: b64Char (b3 % 64) :: base64Core rest

/-- `STANDARD.encode` on a byte sequence. -/
def base64Encode (bs : List Nat) : String :=
  String.mk (base64Core bs)

/-- Translation of the post-capture part of `capture_viewport_screenshot`:
`captured` models `screenshot.data`, the PNG bytes returned by the (external,
platform-specific) capture provider; `envMaxWidth` models the
`TAURI_MCP_SCREENSHOT_MAX_WIDTH` environment variable.  Resolves the
effective max width, resizes when a ceiling is present, converts the format,
and packages the result as a base64 data URL. -/
def capture_viewport_screenshot (c : ImageCrate) (captured : List Nat)
    (format : String) (quality : Nat) (max_width : Option Nat)
    (envMaxWidth : Option String) : Except ScreenshotError String :=
  let effective_max_width := get_effective_max_width max_width envMaxWidth
  let resizedE : Except ScreenshotError (List Nat) :=
    match effective_max_width with
    | some max_w => resize_if_needed c captured max_w
    | none => .ok captured
  match resizedE with
  | .error e => .error e
  | .ok resized_data =>
    match convert_format c resized_data format quality with
    | .error e => .error e
    | .ok final_data =>
      let mime_type := if format = "jpeg" then "image/jpeg" else "image/png"
      .ok ("data:" ++ mime_type ++ ";base64," ++ base64Encode final_data)

/-!
Port discovery, from `discovery.rs`.  `TcpListener::bind` is external
state of the operating system, modelled by the predicate
`avail : Nat → Bool` (the result of `is_port_available` at each port).
Ports are `u16`; the Rust source computes `base_port + offset` as `u16`
addition, so the wrap `% 65536` of release builds is written explicitly
(debug builds would panic at the same spot; `scanOverflows` below detects
exactly when that addition leaves the `u16` range).
-/

/-- The scanning loop of `find_available_port`: try `fuel` consecutive
offsets starting at `offset`, returning the first port for which `avail`
holds, `none` if all attempts fail. -/
def scanPorts (avail : Nat → Bool) (base_port offset : Nat) : Nat → Option Nat
  | 0 => none
  | fuel + 1 =>
    let port := (base_port + offset) % 65536
    if avail port then some port else scanPorts avail base_port (offset + 1) fuel

/-- Translation of `find_available_port`: scan 100 consecutive ports from
`base_port`, falling back to `base_port` when none is available. -/
def find_available_port (avail : Nat → Bool) (base_port : Nat) : Nat :=
  (scanPorts avail base_port 0 100).getD base_port

/-- Does the scan of `find_available_port` compute a port value
`base_port + offset` outside the `u16` range before it returns?  At such an
offset a debug build panics and a release build wraps modulo `2 ^ 16`. -/
def scanOverflows (avail : Nat → Bool) (base_port offset : Nat) : Nat → Bool
  | 0 => false
  | fuel + 1 =>
    let raw := base_port + offset
    if 65535 < raw then true
    else if avail (raw % 65536) then false
    else scanOverflows avail base_port (offset + 1) fuel

/-- Overflow detector for the full 100-attempt scan. -/
def scan_overflows (avail : Nat → Bool) (base_port : Nat) : Bool :=
  scanOverflows avail base_port 0 100

/-!
Window resize command, from `commands/resize_window.rs` (the desktop
variant).  The Tauri window handle is external; it is modelled by the
results of the three calls the command makes on it: `is_resizable()`,
`set_size(LogicalSize)` and `set_size(PhysicalSize)`.  `resolve_window`
lives in `commands/list_windows.rs` (outside the sources under
verification), so the command is parameterised by a resolver function. -/

/-- Model of a Tauri window as seen by `resize_window`: the outcome of
`is_resizable()` and of `set_size` with logical resp. physical pixels,
as functions of the requested width and height. -/
structure WindowModel where
  resizableResult : Except String Bool
  setSizeLogical : Nat → Nat → Except String Unit
  setSizePhysical : Nat → Nat → Except String Unit

/-- `ResizeWindowParams` from `resize_window.rs` (serde defaults already
applied: `logical` defaults to `true` at deserialization). -/
structure ResizeWindowParams where
  width : Nat
  height : Nat
  window_id : Option String
  logical : Bool
deriving DecidableEq, Repr

/-- `ResizeWindowResult` from `resize_window.rs`. -/
structure ResizeWindowResult where
  success : Bool
  window_label : String
  width : Nat
  height : Nat
  logical : Bool
  error : Option String
deriving DecidableEq, Repr

/-- Translation of the desktop `resize_window` command, parameterised by the
window resolver (`resolve_window` of `list_windows.rs`, external to the
verified sources). -/
def resize_window (resolve : Option String → Except String WindowModel)
    (params : ResizeWindowParams) : Except String ResizeWindowResult :=
  let window_label := (params.window_id).getD "main"
  match resolve params.window_id with
  | .error e => .error e
  | .ok window =>
    let is_resizable :=
      match window.resizableResult with
      | .ok b => b
      | .error _ => true
    if !is_resizable then
      .ok ⟨false, window_label, params.width, params.height, params.logical,
        some "Window is not resizable"⟩
    else
      let result :=
        if params.logical then window.setSizeLogical params.width params.height
        else window.setSizePhysical params.width params.height
      match result with
      | .ok _ =>
        .ok ⟨true, window_label, params.width, params.height, params.logical, none⟩
      | .error e =>
        .ok ⟨false, window_label, params.width, params.height, params.logical,
          some ("Failed to resize window: " ++ e)⟩

/-!
A concrete `ImageCrate` instance used to evaluate the theorems at explicit
inputs (counterexamples and witnesses).  A byte sequence `[t, w, h]` stands
for an encoded image of width `w ≥ 1` and height `h ≥ 1`, with `t = 0` for
PNG and `t = 1` for JPEG; every other sequence fails to decode.  This
instance satisfies, at these inputs, the codec facts the general theorems
assume of the real `image` crate (dimension-preserving encode/decode
round-trip, encoders producing their own format).
-/

/-- Decoder of the sample codec. -/
def sampleLoad : List Nat → Option Image
  | [t, w, h] => if (t = 0 ∨ t = 1) ∧ 1 ≤ w ∧ 1 ≤ h then some ⟨w, h⟩ else none
  | _ => none

/-- Format detector of the sample codec: the leading tag byte. -/
def sampleGuess : List Nat → Option ImageFormat
  | t :: _ => if t = 0 then some .png else if t = 1 then some .jpeg else none
  | [] => none

/-- PNG encoder of the sample codec. -/
def sampleEncodePng (img : Image) : Option (List Nat) :=
  some [0, img.width, img.height]

/-- JPEG encoder of the sample codec. -/
def sampleEncodeJpeg (img : Image) (_quality : Nat) : Option (List Nat) :=
  some [1, img.width, img.height]

/-- The sample codec. -/
def sampleCrate : ImageCrate :=
  ⟨sampleLoad, sampleGuess, sampleEncodePng, sampleEncodeJpeg⟩

/-! ## General lemmas -/

/-- `round` is monotone on `ℚ`. -/
theorem round_mono_q {a b : ℚ} (h : a ≤ b) : round a ≤ round b := by
  rw [round_eq, round_eq]
  exact Int.floor_mono (by linarith)

/-- `round` of a non-negative rational is non-negative. -/
theorem round_nonneg_q {a : ℚ} (h : 0 ≤ a) : 0 ≤ round a := by
  have := round_mono_q h
  simpa using this

/-! ## C2: no resize when the width is within the ceiling -/

/-- C2: for every decodable input whose decoded width is at most the ceiling,
`resize_if_needed` returns the input byte sequence unchanged (the `.ok data`
branch, no re-encode); a ceiling exactly equal to the current width satisfies
the hypothesis, so it is a no-op as well. -/
theorem C2_within_ceiling_identity (c : ImageCrate) (data : List Nat)
    (img : Image) (maxw : Nat) (hload : c.load_from_memory data = some img)
    (hle : img.width ≤ maxw) :
    resize_if_needed c data maxw = .ok data := by
  simp [resize_if_needed, hload, hle]

/-- C2 witness: a 100×10 image with ceiling exactly 100 (ceiling = width)
passes through unchanged. -/
theorem C2_within_ceiling_identity_witness :
    resize_if_needed sampleCrate [0, 100, 10] 100 = .ok [0, 100, 10] :=
  C2_within_ceiling_identity sampleCrate [0, 100, 10] ⟨100, 10⟩ 100
    (by decide) (by decide)

/-! ## C5: PNG-to-PNG conversion is the identity -/

/-- C5: for bytes that are already PNG-encoded, `convert_format` with target
`"png"` returns the input unchanged for every quality value, with no
decode/encode round-trip (the function returns before touching any codec). -/
theorem C5_png_identity (c : ImageCrate) (data : List Nat) (q : Nat)
    (hpng : c.guess_format data = some ImageFormat.png) :
    convert_format c data "png" q = .ok data := by
  simp [convert_format]

/-- C5 witness: concrete PNG bytes at quality 37. -/
theorem C5_png_identity_witness :
    convert_format sampleCrate [0, 8, 6] "png" 37 = .ok [0, 8, 6] :=
  C5_png_identity sampleCrate [0, 8, 6] 37 (by decide)

/-! ## C4: resolution of the effective max width -/

/-- C4: the configuration resolver uses an explicit parameter verbatim
(including 0); with no parameter it uses the environment value when it
parses as a `u32`; otherwise it resolves to `none`, and in that case the
pipeline runs no resize stage at all: the captured bytes flow directly
into format conversion. -/
theorem C4_effective_max_width_priority (param : Option Nat)
    (env : Option String) (w : Nat) (c : ImageCrate) (data : List Nat)
    (fmt : String) (q : Nat) :
    (get_effective_max_width (some w) env = some w) ∧
    (∀ s n, parse_u32 s = some n →
      get_effective_max_width none (some s) = some n) ∧
    (param = none → env.bind parse_u32 = none →
      get_effective_max_width param env = none) ∧
    (get_effective_max_width param env = none →
      capture_viewport_screenshot c data fmt q param env =
        match convert_format c data fmt q with
        | .error e => .error e
        | .ok fd =>
          .ok ("data:" ++ (if fmt = "jpeg" then "image/jpeg" else "image/png") ++
            ";base64," ++ base64Encode fd)) := by
  refine ⟨by simp [get_effective_max_width], ?_, ?_, ?_⟩
  · intro s n hp
    simp [get_effective_max_width, hp]
  · intro hp he
    simp [get_effective_max_width, hp, he]
  · intro hnone
    simp only [capture_viewport_screenshot, hnone]

/-- C4 witness: explicit 500 overrides an environment default of 2000;
explicit 0 is used verbatim; the environment value 2000 is used when no
parameter is given; an unparseable environment value resolves to `none` and
the pipeline then maps the captured bytes straight through conversion. -/
theorem C4_effective_max_width_priority_witness :
    get_effective_max_width (some 500) (some "2000") = some 500 ∧
    get_effective_max_width (some 0) (some "2000") = some 0 ∧
    get_effective_max_width none (some "2000") = some 2000 ∧
    get_effective_max_width none (some "abc") = none ∧
    capture_viewport_screenshot sampleCrate [0, 8, 6] "png" 80 none (some "abc") =
      .ok ("data:image/png;base64," ++ base64Encode [0, 8, 6]) := by
  have h1 := (C4_effective_max_width_priority (some 500) (some "2000") 500
    sampleCrate [0, 8, 6] "png" 80).1
  have h2 := (C4_effective_max_width_priority (some 0) (some "2000") 0
    sampleCrate [0, 8, 6] "png" 80).1
  have h3 := (C4_effective_max_width_priority none (some "2000") 2000
    sampleCrate [0, 8, 6] "png" 80).2.1 "2000" 2000 (by decide)
  have h4 := (C4_effective_max_width_priority none (some "abc") 0
    sampleCrate [0, 8, 6] "png" 80).2.2.1 rfl (by decide)
  have h5 := (C4_effective_max_width_priority none (some "abc") 0
    sampleCrate [0, 8, 6] "png" 80).2.2.2 h4
  refine ⟨h1, h2, h3, h4, ?_⟩
  rw [h5]
  simp [convert_format]

/-! ## C9: absent ceiling and PNG format are a pure pass-through -/

/-- C9: when the effective ceiling resolves to `none` and the requested
format is `"png"`, the pipeline performs no resize and no re-encode, and the
output is the data URL of the base64 encoding of the original captured
bytes. -/
theorem C9_absent_ceiling_png_passthrough (c : ImageCrate) (data : List Nat)
    (q : Nat) (mw : Option Nat) (env : Option String)
    (h : get_effective_max_width mw env = none) :
    capture_viewport_screenshot c data "png" q mw env =
      .ok ("data:image/png;base64," ++ base64Encode data) := by
  simp [capture_viewport_screenshot, h, convert_format]

/-- C9 witness: an 8×6 PNG capture with no parameter and no environment
default comes back as the base64 data URL of the original bytes. -/
theorem C9_absent_ceiling_png_passthrough_witness :
    capture_viewport_screenshot sampleCrate [0, 8, 6] "png" 80 none none =
      .ok ("data:image/png;base64," ++ base64Encode [0, 8, 6]) :=
  C9_absent_ceiling_png_passthrough sampleCrate [0, 8, 6] 80 none none (by decide)

/-! ## C7: window resize failures are structured results, not raised errors -/

/-- C7: once the window resolves, a non-resizable window makes
`resize_window` return an `.ok` result with `success = false` and the
non-empty error string "Window is not resizable"; and whenever the
underlying set-size call fails, the command likewise returns an `.ok`
result object with `success = false` and a non-empty error string instead
of propagating a failure. -/
theorem C7_resize_window_structured_failure
    (resolve : Option String → Except String WindowModel)
    (params : ResizeWindowParams) (win : WindowModel)
    (hres : resolve params.window_id = .ok win) :
    (win.resizableResult = .ok false →
      resize_window resolve params =
        .ok ⟨false, (params.window_id).getD "main", params.width, params.height,
          params.logical, some "Window is not resizable"⟩ ∧
      "Window is not resizable" ≠ "") ∧
    (∀ e, (match win.resizableResult with | .ok b => b | .error _ => true) = true →
      (if params.logical then win.setSizeLogical params.width params.height
        else win.setSizePhysical params.width params.height) = .error e →
      resize_window resolve params =
        .ok ⟨false, (params.window_id).getD "main", params.width, params.height,
          params.logical, some ("Failed to resize window: " ++ e)⟩ ∧
      ("Failed to resize window: " ++ e) ≠ "") := by
  constructor
  · intro hfix
    constructor
    · simp [resize_window, hres, hfix]
    · decide
  · intro e hrz hset
    constructor
    · simp [resize_window, hres, hrz, hset]
    · intro hempty
      have h0 : ("Failed to resize window: " ++ e).length = 0 := by rw [hempty]; rfl
      rw [String.length_append] at h0
      have h1 : ("Failed to resize window: ").length = 25 := by rfl
      omega

/-- C7 witness: a non-resizable window and a window whose set-size call
fails both produce structured `success = false` results. -/
theorem C7_resize_window_structured_failure_witness :
    resize_window (fun _ => .ok ⟨.ok false, fun _ _ => .ok (), fun _ _ => .ok ()⟩)
        ⟨800, 600, none, true⟩ =
      .ok ⟨false, "main", 800, 600, true, some "Window is not resizable"⟩ ∧
    resize_window (fun _ => .ok ⟨.ok true, fun _ _ => .error "size constraint",
        fun _ _ => .ok ()⟩) ⟨800, 600, none, true⟩ =
      .ok ⟨false, "main", 800, 600, true,
        some ("Failed to resize window: " ++ "size constraint")⟩ := by
  constructor
  · exact ((C7_resize_window_structured_failure
      (fun _ => .ok ⟨.ok false, fun _ _ => .ok (), fun _ _ => .ok ()⟩)
      ⟨800, 600, none, true⟩ ⟨.ok false, fun _ _ => .ok (), fun _ _ => .ok ()⟩
      rfl).1 rfl).1
  · exact ((C7_resize_window_structured_failure
      (fun _ => .ok ⟨.ok true, fun _ _ => .error "size constraint", fun _ _ => .ok ()⟩)
      ⟨800, 600, none, true⟩
      ⟨.ok true, fun _ _ => .error "size constraint", fun _ _ => .ok ()⟩
      rfl).2 "size constraint" rfl rfl).1

/-! ## C6: bounded port scan -/

/-- The scan returns the first offset whose port is available. -/
theorem scanPorts_first (avail : Nat → Bool) (base : Nat) :
    ∀ fuel offset k, k < fuel →
      avail ((base + offset + k) % 65536) = true →
      (∀ j, j < k → avail ((base + offset + j) % 65536) = false) →
      scanPorts avail base offset fuel = some ((base + offset + k) % 65536) := by
  intro fuel
  induction fuel with
  | zero => intro offset k hk; omega
  | succ n ih =>
    intro offset k hk hav hmin
    rcases Nat.eq_zero_or_pos k with hk0 | hkpos
    · subst hk0
      simp only [scanPorts]
      rw [show base + offset + 0 = base + offset by omega] at hav
      simp [hav]
    · have h0 : avail ((base + offset + 0) % 65536) = false := hmin 0 hkpos
      rw [show base + offset + 0 = base + offset by omega] at h0
      simp only [scanPorts, h0]
      simp only [Bool.false_eq_true, if_false]
      have := ih (offset + 1) (k - 1) (by omega)
        (by rw [show base + (offset + 1) + (k - 1) = base + offset + k by omega]; exact hav)
        (fun j hj => by
          have := hmin (j + 1) (by omega)
          rwa [show base + offset + (j + 1) = base + (offset + 1) + j by omega] at this)
      rw [this, show base + (offset + 1) + (k - 1) = base + offset + k by omega]

/-- The scan fails when every tried port is unavailable. -/
theorem scanPorts_none (avail : Nat → Bool) (base : Nat) :
    ∀ fuel offset, (∀ j, j < fuel → avail ((base + offset + j) % 65536) = false) →
      scanPorts avail base offset fuel = none := by
  intro fuel
  induction fuel with
  | zero => intro offset _; rfl
  | succ n ih =>
    intro offset hall
    have h0 : avail ((base + offset + 0) % 65536) = false := hall 0 (by omega)
    rw [show base + offset + 0 = base + offset by omega] at h0
    simp only [scanPorts, h0]
    simp only [Bool.false_eq_true, if_false]
    exact ih (offset + 1) fun j hj => by
      have := hall (j + 1) (by omega)
      rwa [show base + offset + (j + 1) = base + (offset + 1) + j by omega] at this

/-- C6: within the `u16` range, `find_available_port` tries at most 100
consecutive ports from `base_port` and returns the first available one
(`base_port + k` when the `k` earlier ports are all taken); in particular
when `base_port` and `base_port + 1` are bound but `base_port + 2` is free
it returns `base_port + 2`; and when all 100 attempts fail it falls back to
`base_port`. -/
theorem C6_find_available_port_scan (avail : Nat → Bool) (base : Nat)
    (hrange : base + 99 ≤ 65535) :
    (∀ k, k < 100 → avail (base + k) = true →
      (∀ j, j < k → avail (base + j) = false) →
      find_available_port avail base = base + k) ∧
    ((∀ j, j < 100 → avail (base + j) = false) →
      find_available_port avail base = base) ∧
    (avail base = false → avail (base + 1) = false → avail (base + 2) = true →
      find_available_port avail base = base + 2) := by
  have hmod : ∀ j, j ≤ 99 → (base + 0 + j) % 65536 = base + j := by
    intro j hj
    rw [Nat.add_zero, Nat.mod_eq_of_lt (by omega)]
  have hfirst : ∀ k, k < 100 → avail (base + k) = true →
      (∀ j, j < k → avail (base + j) = false) →
      find_available_port avail base = base + k := by
    intro k hk hav hmin
    unfold find_available_port
    rw [scanPorts_first avail base 100 0 k hk
      (by rw [hmod k (by omega)]; exact hav)
      (fun j hj => by rw [hmod j (by omega)]; exact hmin j hj)]
    rw [hmod k (by omega)]
    rfl
  refine ⟨hfirst, ?_, ?_⟩
  · intro hall
    unfold find_available_port
    rw [scanPorts_none avail base 100 0
      (fun j hj => by rw [hmod j (by omega)]; exact hall j hj)]
    rfl
  · intro h0 h1 h2
    refine hfirst 2 (by omega) h2 ?_
    intro j hj
    interval_cases j
    · exact h0
    · exact h1

/-- C6 witness: ports 9223 and 9224 taken, 9225 free, gives 9225; all of
9300..9399 taken gives back 9300. -/
theorem C6_find_available_port_scan_witness :
    find_available_port (fun p => decide (p = 9225)) 9223 = 9225 ∧
    find_available_port (fun _ => false) 9300 = 9300 := by
  constructor
  · have h := (C6_find_available_port_scan (fun p => decide (p = 9225)) 9223
      (by omega)).2.2 (by decide) (by decide) (by decide)
    simpa using h
  · exact (C6_find_available_port_scan (fun _ => false) 9300 (by omega)).2.1
      (fun j _ => rfl)

/-! ## C10: the port computation can leave the u16 range -/

/-- The overflow detector fires when the scan, with every in-range port
unavailable, has enough fuel to push `base + offset` past 65535. -/
theorem scanOverflows_true (avail : Nat → Bool) (base : Nat) :
    ∀ fuel offset, (∃ t, t < fuel ∧ 65535 < base + offset + t) →
      (∀ t, base + offset + t ≤ 65535 → avail (base + offset + t) = false) →
      scanOverflows avail base offset fuel = true := by
  intro fuel
  induction fuel with
  | zero => intro offset h; omega
  | succ n ih =>
    intro offset hex hbusy
    by_cases hraw : 65535 < base + offset
    · simp only [scanOverflows, if_pos hraw]
    · have hle : base + offset ≤ 65535 := by omega
      have h0 : avail (base + offset) = false := by
        have := hbusy 0 (by omega)
        rwa [Nat.add_zero] at this
      simp only [scanOverflows, if_neg hraw, Nat.mod_eq_of_lt (by omega : base + offset < 65536), h0]
      simp only [Bool.false_eq_true, if_false]
      refine ih (offset + 1) ?_ ?_
      · obtain ⟨t, ht, hgt⟩ := hex
        refine ⟨t - 1, by omega, by omega⟩
      · intro t ht
        have := hbusy (t + 1) (by omega)
        rwa [show base + offset + (t + 1) = base + (offset + 1) + t by omega] at this

/-- C10 counterexample: the claim quantifies over every `base_port`
greater than 65435, but at `base_port = 65436` the full 100-attempt scan
stays inside the `u16` range (65436 + 99 = 65535), so no addition
overflows even when every port is taken. -/
theorem C10_counterexample :
    65435 < 65436 ∧ scan_overflows (fun _ => false) 65436 = false := by
  constructor
  · decide
  · decide

/-- C10 (amended): for every `base_port ≥ 65437` (so that
`base_port + 99 > 65535`), when no in-range port can be bound the scan of
`find_available_port` computes `base_port + offset > 65535` before the 100
attempts complete — the `u16` addition overflows (panic in a debug build,
wrap modulo `2^16` in release), an edge case the spec never mentions. -/
theorem C10_port_addition_overflow (avail : Nat → Bool) (base : Nat)
    (hbase : 65437 ≤ base) (hhi : base ≤ 65535)
    (hbusy : ∀ p, base ≤ p → p ≤ 65535 → avail p = false) :
    scan_overflows avail base = true := by
  unfold scan_overflows
  refine scanOverflows_true avail base 100 0 ⟨99, by omega, by omega⟩ ?_
  intro t ht
  exact hbusy (base + 0 + t) (by omega) (by omega)

/-- C10 witness: at `base_port = 65437` with every port busy the overflow
detector fires. -/
theorem C10_port_addition_overflow_witness :
    scan_overflows (fun _ => false) 65437 = true :=
  C10_port_addition_overflow (fun _ => false) 65437 (by omega) (by omega)
    (fun _ _ _ => rfl)

/-! ## Geometry of the resize step (C1, C8) -/

/-- Characterisation of `resize_dimensions w h c nhgt` when called the way
`resize_if_needed` calls it (`nhgt` is the pre-rounded target height,
`c < w`, dimensions within `u32`): the output height is `nhgt` clamped
below to 1, the output width is at most `max c 1`, and the output width is
exactly `c` when the rounded height did not round down below the exact
scaled height (and `c ≥ 1`). -/
theorem resize_dims_spec (w h c nhgt : Nat) (hw : 1 ≤ w) (hh : 1 ≤ h)
    (hcw : c < w) (hcu : c ≤ u32Max) (hhu : h ≤ u32Max)
    (hn : nhgt = (round ((h : ℚ) * ((c : ℚ) / (w : ℚ)))).toNat) :
    ∃ nw, resize_dimensions w h c nhgt = (nw, max nhgt 1) ∧
      nw ≤ max c 1 ∧ 1 ≤ nw ∧
      ((h : ℚ) * ((c : ℚ) / (w : ℚ)) ≤ (nhgt : ℚ) → 1 ≤ c → nw = c) := by
  have hw0 : (0 : ℚ) < (w : ℚ) := by exact_mod_cast hw
  have hh0 : (0 : ℚ) < (h : ℚ) := by exact_mod_cast hh
  have hs0 : (0 : ℚ) ≤ (c : ℚ) / (w : ℚ) := by positivity
  have hs1 : (c : ℚ) / (w : ℚ) ≤ 1 := by
    rw [div_le_one hw0]
    exact_mod_cast hcw.le
  have hws : (w : ℚ) * ((c : ℚ) / (w : ℚ)) = (c : ℚ) := by field_simp
  have hhs : (h : ℚ) * ((nhgt : ℚ) / (h : ℚ)) = (nhgt : ℚ) := by field_simp
  have hrnn : 0 ≤ round ((h : ℚ) * ((c : ℚ) / (w : ℚ))) :=
    round_nonneg_q (by positivity)
  have hcastn : ((nhgt : ℕ) : ℤ) = round ((h : ℚ) * ((c : ℚ) / (w : ℚ))) := by
    rw [hn]
    exact Int.toNat_of_nonneg hrnn
  -- the ratio picked by the bounding-box fit
  set ratio : ℚ := min ((c : ℚ) / (w : ℚ)) ((nhgt : ℚ) / (h : ℚ)) with hratio_def
  have hr0 : 0 ≤ ratio := le_min hs0 (by positivity)
  have hrs : ratio ≤ (c : ℚ) / (w : ℚ) := min_le_left _ _
  -- width bound
  have hwble : (w : ℚ) * ratio ≤ (c : ℚ) := by
    calc (w : ℚ) * ratio ≤ (w : ℚ) * ((c : ℚ) / (w : ℚ)) :=
          mul_le_mul_of_nonneg_left hrs hw0.le
    _ = (c : ℚ) := hws
  have hnwle : (round ((w : ℚ) * ratio)).toNat ≤ c := by
    have h1 : round ((w : ℚ) * ratio) ≤ round ((c : ℚ)) := round_mono_q hwble
    rw [round_natCast] at h1
    exact Int.toNat_le.mpr h1
  have hnwmax : max (round ((w : ℚ) * ratio)).toNat 1 ≤ max c 1 :=
    max_le_max hnwle le_rfl
  -- height value
  have hnhval : max (round ((h : ℚ) * ratio)).toNat 1 = max nhgt 1 := by
    rcases le_total ((c : ℚ) / (w : ℚ)) ((nhgt : ℚ) / (h : ℚ)) with hcase | hcase
    · rw [hratio_def, min_eq_left hcase, ← hcastn, Int.toNat_natCast]
    · rw [hratio_def, min_eq_right hcase, hhs, round_natCast, Int.toNat_natCast]
  -- height bound (for the overflow branch)
  have hnhle : (round ((h : ℚ) * ratio)).toNat ≤ h := by
    have hle : (h : ℚ) * ratio ≤ (h : ℚ) := by
      calc (h : ℚ) * ratio ≤ (h : ℚ) * 1 :=
            mul_le_mul_of_nonneg_left (le_trans hrs hs1) hh0.le
      _ = (h : ℚ) := mul_one _
    have h1 : round ((h : ℚ) * ratio) ≤ round ((h : ℚ)) := round_mono_q hle
    rw [round_natCast] at h1
    exact Int.toNat_le.mpr h1
  have humax : 1 ≤ u32Max := by norm_num [u32Max]
  have hnw_u32 : ¬ u32Max < max (round ((w : ℚ) * ratio)).toNat 1 := by
    have : max (round ((w : ℚ) * ratio)).toNat 1 ≤ u32Max :=
      le_trans hnwmax (by omega)
    omega
  have hnh_u32 : ¬ u32Max < max (round ((h : ℚ) * ratio)).toNat 1 := by
    have : max (round ((h : ℚ) * ratio)).toNat 1 ≤ u32Max := by
      have := max_le_max hnhle (le_refl 1)
      omega
    omega
  refine ⟨max (round ((w : ℚ) * ratio)).toNat 1, ?_, ?_, le_max_right _ _, ?_⟩
  · simp only [resize_dimensions, ← hratio_def]
    rw [if_neg hnw_u32, if_neg hnh_u32, hnhval]
  · omega
  · intro hcond hc1
    have hle : (c : ℚ) / (w : ℚ) ≤ (nhgt : ℚ) / (h : ℚ) := by
      rw [le_div_iff₀ hh0]
      calc (c : ℚ) / (w : ℚ) * (h : ℚ) = (h : ℚ) * ((c : ℚ) / (w : ℚ)) := by ring
      _ ≤ (nhgt : ℚ) := hcond
    rw [hratio_def, min_eq_left hle, hws, round_natCast, Int.toNat_natCast]
    omega

/-- The resize branch of `resize_if_needed` (`maxw < width`): it succeeds,
and the output bytes decode to an image whose height is the rounded target
height clamped to 1 and whose width is at most `max maxw 1`, with width
exactly `maxw` when the height rounding did not round down. -/
theorem resize_branch_spec (c : ImageCrate) (data : List Nat) (img : Image)
    (maxw : Nat) (hload : c.load_from_memory data = some img)
    (henc : ∀ i, 1 ≤ i.width → 1 ≤ i.height →
      ∃ bs, c.encode_png i = some bs ∧ c.load_from_memory bs = some i)
    (hw1 : 1 ≤ img.width) (hh1 : 1 ≤ img.height)
    (hwu : img.width ≤ u32Max) (hhu : img.height ≤ u32Max)
    (hcw : maxw < img.width) (hcu : maxw ≤ u32Max) :
    ∃ out nw,
      resize_if_needed c data maxw = .ok out ∧
      c.load_from_memory out = some
        ⟨nw, max ((round ((img.height : ℚ) * ((maxw : ℚ) / (img.width : ℚ)))).toNat) 1⟩ ∧
      nw ≤ max maxw 1 ∧ 1 ≤ nw ∧
      ((img.height : ℚ) * ((maxw : ℚ) / (img.width : ℚ)) ≤
          (((round ((img.height : ℚ) * ((maxw : ℚ) / (img.width : ℚ)))).toNat : ℕ) : ℚ) →
        1 ≤ maxw → nw = maxw) := by
  obtain ⟨nw, hdims, hble, h1nw, hcond⟩ :=
    resize_dims_spec img.width img.height maxw
      ((round ((img.height : ℚ) * ((maxw : ℚ) / (img.width : ℚ)))).toNat)
      hw1 hh1 hcw hcu hhu rfl
  have hne : ¬ (maxw = img.width ∧
      (round ((img.height : ℚ) * ((maxw : ℚ) / (img.width : ℚ)))).toNat = img.height) := by
    intro hcontra
    omega
  have hresized : imageResize img maxw
      ((round ((img.height : ℚ) * ((maxw : ℚ) / (img.width : ℚ)))).toNat) =
      ⟨nw, max ((round ((img.height : ℚ) * ((maxw : ℚ) / (img.width : ℚ)))).toNat) 1⟩ := by
    simp only [imageResize, if_neg hne, hdims]
  obtain ⟨bs, hencok, hloadbs⟩ := henc
    ⟨nw, max ((round ((img.height : ℚ) * ((maxw : ℚ) / (img.width : ℚ)))).toNat) 1⟩
    h1nw (le_max_right _ _)
  refine ⟨bs, nw, ?_, hloadbs, hble, h1nw, hcond⟩
  simp only [resize_if_needed, hload, if_neg (by omega : ¬ img.width ≤ maxw), hresized,
    hencok]

/-- C1 counterexample: a 100×10 image with ceiling 24.  The decoded input is
wider than the ceiling (100 > 24), yet the resized output decodes to width
20, not to the ceiling 24: the bounding-box fit of `DynamicImage::resize`
re-derives the width from the already-rounded height (2 px instead of the
exact 2.4 px), shrinking it below the ceiling. -/
theorem C1_counterexample :
    sampleCrate.load_from_memory [0, 100, 10] = some ⟨100, 10⟩ ∧
    24 < 100 ∧
    resize_if_needed sampleCrate [0, 100, 10] 24 = .ok [0, 20, 2] ∧
    sampleCrate.load_from_memory [0, 20, 2] = some ⟨20, 2⟩ ∧
    (20 : Nat) ≠ 24 := by
  refine ⟨by decide, by decide, ?_, by decide, by decide⟩
  have h1 : round ((10 : ℚ) * ((24 : ℚ) / (100 : ℚ))) = 2 := by norm_num [round_eq]
  have h2 : min ((24 : ℚ) / (100 : ℚ)) ((2 : ℚ) / (10 : ℚ)) = (5 : ℚ)⁻¹ := by
    norm_num [min_def]
  have h3 : round ((100 : ℚ) * (5 : ℚ)⁻¹) = 20 := by norm_num [round_eq]
  have h4 : round ((10 : ℚ) * (5 : ℚ)⁻¹) = 2 := by norm_num [round_eq]
  simp [resize_if_needed, sampleCrate, sampleLoad, sampleEncodePng, imageResize,
    resize_dimensions, u32Max, h1, h2, h3, h4]

/-- C1 (amended): for a decodable image strictly wider than a ceiling
`maxw ≥ 1` (dimensions within `u32`, PNG encode/decode preserving
dimensions), the resize succeeds and the output decodes to height
`round(height · maxw / width)` clamped below to 1 — within +1 of the
claimed rounding formula — and to a width that is at most `maxw` but equals
`maxw` only under the extra condition that the height rounding did not
round down below the exact scaled height. -/
theorem C1_resize_when_wider (c : ImageCrate) (data : List Nat) (img : Image)
    (maxw : Nat) (hload : c.load_from_memory data = some img)
    (henc : ∀ i, 1 ≤ i.width → 1 ≤ i.height →
      ∃ bs, c.encode_png i = some bs ∧ c.load_from_memory bs = some i)
    (hw1 : 1 ≤ img.width) (hh1 : 1 ≤ img.height)
    (hwu : img.width ≤ u32Max) (hhu : img.height ≤ u32Max)
    (hcw : maxw < img.width) (hcu : maxw ≤ u32Max) (hc1 : 1 ≤ maxw) :
    ∃ out img2,
      resize_if_needed c data maxw = .ok out ∧
      c.load_from_memory out = some img2 ∧
      img2.height =
        max ((round ((img.height : ℚ) * ((maxw : ℚ) / (img.width : ℚ)))).toNat) 1 ∧
      round ((img.height : ℚ) * ((maxw : ℚ) / (img.width : ℚ))) ≤ (img2.height : ℤ) ∧
      (img2.height : ℤ) ≤
        round ((img.height : ℚ) * ((maxw : ℚ) / (img.width : ℚ))) + 1 ∧
      img2.width ≤ maxw ∧
      ((img.height : ℚ) * ((maxw : ℚ) / (img.width : ℚ)) ≤
          (((round ((img.height : ℚ) * ((maxw : ℚ) / (img.width : ℚ)))).toNat : ℕ) : ℚ) →
        img2.width = maxw) := by
  obtain ⟨out, nw, hok, hloadout, hble, h1nw, hcond⟩ :=
    resize_branch_spec c data img maxw hload henc hw1 hh1 hwu hhu hcw hcu
  have hRnn : 0 ≤ round ((img.height : ℚ) * ((maxw : ℚ) / (img.width : ℚ))) := by
    refine round_nonneg_q ?_
    positivity
  have hcast : (((round ((img.height : ℚ) * ((maxw : ℚ) / (img.width : ℚ)))).toNat : ℕ) : ℤ) =
      round ((img.height : ℚ) * ((maxw : ℚ) / (img.width : ℚ))) :=
    Int.toNat_of_nonneg hRnn
  have hwle : nw ≤ maxw := by omega
  refine ⟨out,
    ⟨nw, max ((round ((img.height : ℚ) * ((maxw : ℚ) / (img.width : ℚ)))).toNat) 1⟩,
    hok, hloadout, rfl, ?_, ?_, hwle, fun hx => hcond hx hc1⟩
  · rw [← hcast]
    exact_mod_cast le_max_left _ 1
  · rw [← hcast]
    have hle : max ((round ((img.height : ℚ) * ((maxw : ℚ) / (img.width : ℚ)))).toNat) 1 ≤
        (round ((img.height : ℚ) * ((maxw : ℚ) / (img.width : ℚ)))).toNat + 1 := by
      omega
    exact_mod_cast hle

/-- C1 witness: a 100×10 image with ceiling 30 resizes to an image that
decodes to exactly 30×3 (the rounding condition holds there). -/
theorem C1_resize_when_wider_witness :
    ∃ out img2,
      resize_if_needed sampleCrate [0, 100, 10] 30 = .ok out ∧
      sampleCrate.load_from_memory out = some img2 ∧
      img2.width = 30 ∧ img2.height = 3 := by
  have hround : round ((10 : ℚ) * ((30 : ℚ) / (100 : ℚ))) = 3 := by
    norm_num [round_eq]
  obtain ⟨out, img2, hok, hloadout, hheight, _, _, _, hwidth⟩ :=
    C1_resize_when_wider sampleCrate [0, 100, 10] ⟨100, 10⟩ 30 (by decide)
      (fun i hw hh => ⟨[0, i.width, i.height], rfl, by simp [sampleCrate, sampleLoad, hw, hh]⟩)
      (by decide) (by decide) (by decide) (by decide) (by decide) (by decide) (by decide)
  refine ⟨out, img2, hok, hloadout, ?_, ?_⟩
  · refine hwidth ?_
    simp [hround]
    norm_num
  · simp [hround] at hheight
    exact hheight

/-- C8 counterexample: with ceiling 0 (`min(original_width, ceiling) = 0`),
a 2×2 image resizes to an output that decodes to width 1: the output is
wider than the ceiling, and its width is not `min(original_width,
ceiling)`. -/
theorem C8_counterexample :
    resize_if_needed sampleCrate [0, 2, 2] 0 = .ok [0, 1, 1] ∧
    sampleCrate.load_from_memory [0, 1, 1] = some ⟨1, 1⟩ ∧
    ¬ ((1 : Nat) ≤ 0) ∧ (1 : Nat) ≠ min 2 0 := by
  refine ⟨?_, by decide, by decide, by decide⟩
  have h1 : round ((2 : ℚ) * ((0 : ℚ) / (2 : ℚ))) = 0 := by norm_num
  have h2 : min ((0 : ℚ) / (2 : ℚ)) ((0 : ℚ) / (2 : ℚ)) = (0 : ℚ) := by norm_num
  simp [resize_if_needed, sampleCrate, sampleLoad, sampleEncodePng, imageResize,
    resize_dimensions, u32Max, h1, h2]

/-- C8 (amended): for every decodable image and ceiling, `resize_if_needed`
succeeds and its output decodes to a width never exceeding the original
width and never exceeding `max(ceiling, 1)` — hence at most
`min(original_width, max(ceiling, 1))`.  (Equality with
`min(original_width, ceiling)` can fail: the width may come out strictly
smaller, and a ceiling of 0 still produces width 1.) -/
theorem C8_output_never_wider (c : ImageCrate) (data : List Nat) (img : Image)
    (maxw : Nat) (hload : c.load_from_memory data = some img)
    (henc : ∀ i, 1 ≤ i.width → 1 ≤ i.height →
      ∃ bs, c.encode_png i = some bs ∧ c.load_from_memory bs = some i)
    (hw1 : 1 ≤ img.width) (hh1 : 1 ≤ img.height)
    (hwu : img.width ≤ u32Max) (hhu : img.height ≤ u32Max)
    (hcu : maxw ≤ u32Max) :
    ∃ out img2,
      resize_if_needed c data maxw = .ok out ∧
      c.load_from_memory out = some img2 ∧
      img2.width ≤ img.width ∧
      img2.width ≤ max maxw 1 ∧
      img2.width ≤ min img.width (max maxw 1) := by
  by_cases hle : img.width ≤ maxw
  · refine ⟨data, img, ?_, hload, le_refl _, by omega, ?_⟩
    · simp [resize_if_needed, hload, hle]
    · exact le_min (le_refl _) (by omega)
  · obtain ⟨out, nw, hok, hloadout, hble, h1nw, _⟩ :=
      resize_branch_spec c data img maxw hload henc hw1 hh1 hwu hhu (by omega) hcu
    have hww : nw ≤ img.width := by omega
    exact ⟨out,
      ⟨nw, max ((round ((img.height : ℚ) * ((maxw : ℚ) / (img.width : ℚ)))).toNat) 1⟩,
      hok, hloadout, hww, hble, le_min hww hble⟩

/-- C8 witness: a 100×10 image with ceiling 24 yields an output image no
wider than `min(100, max(24, 1)) = 24`. -/
theorem C8_output_never_wider_witness :
    ∃ out img2,
      resize_if_needed sampleCrate [0, 100, 10] 24 = .ok out ∧
      sampleCrate.load_from_memory out = some img2 ∧
      img2.width ≤ min 100 (max 24 1) := by
  obtain ⟨out, img2, hok, hloadout, _, _, hmin⟩ :=
    C8_output_never_wider sampleCrate [0, 100, 10] ⟨100, 10⟩ 24 (by decide)
      (fun i hw hh => ⟨[0, i.width, i.height], rfl, by simp [sampleCrate, sampleLoad, hw, hh]⟩)
      (by decide) (by decide) (by decide) (by decide) (by decide)
  exact ⟨out, img2, hok, hloadout, hmin⟩

/-! ## C3: the data URI's MIME label matches the payload bytes -/

/-- Provenance of a successful `resize_if_needed` result: either the input
bytes unchanged, or the output of the PNG encoder. -/
theorem resize_if_needed_provenance (c : ImageCrate) (data out : List Nat)
    (maxw : Nat) (hok : resize_if_needed c data maxw = .ok out) :
    out = data ∨ ∃ img, c.encode_png img = some out := by
  simp only [resize_if_needed] at hok
  split at hok
  · exact absurd hok (by simp)
  · split at hok
    · left
      cases hok
      rfl
    · split at hok
      · exact absurd hok (by simp)
      · rename_i henc
        right
        cases hok
        exact ⟨_, henc⟩

/-- Provenance of a successful `convert_format` result: the input unchanged
for target `"png"`, otherwise an output of the JPEG encoder. -/
theorem convert_format_provenance (c : ImageCrate) (data : List Nat)
    (fmt : String) (q : Nat) (out : List Nat)
    (hok : convert_format c data fmt q = .ok out) :
    (fmt = "png" ∧ out = data) ∨
    (fmt ≠ "png" ∧ ∃ img, c.encode_jpeg img q = some out) := by
  unfold convert_format at hok
  split at hok
  · next hfmt =>
      left
      cases hok
      exact ⟨hfmt, rfl⟩
  · next hfmt =>
      right
      refine ⟨hfmt, ?_⟩
      unfold convert_to_jpeg at hok
      split at hok
      · exact absurd hok (by simp)
      · split at hok
        · exact absurd hok (by simp)
        · next henc =>
            cases hok
            exact ⟨_, henc⟩

/-- Decomposition of a successful pipeline run: the URL is the data URI of
the converted bytes, where the resized bytes are the captured bytes or a
PNG-encoder output, and the MIME label is chosen from the format string. -/
theorem pipeline_success_decomp (c : ImageCrate) (captured : List Nat)
    (fmt : String) (q : Nat) (mw : Option Nat) (env : Option String)
    (url : String)
    (hok : capture_viewport_screenshot c captured fmt q mw env = .ok url) :
    ∃ resized final,
      (resized = captured ∨ ∃ img, c.encode_png img = some resized) ∧
      convert_format c resized fmt q = .ok final ∧
      url = "data:" ++ (if fmt = "jpeg" then "image/jpeg" else "image/png") ++
        ";base64," ++ base64Encode final := by
  simp only [capture_viewport_screenshot] at hok
  split at hok
  · exact absurd hok (by simp)
  · rename_i resized hresized
    split at hok
    · exact absurd hok (by simp)
    · rename_i final hconv
      cases hok
      refine ⟨resized, final, ?_, hconv, rfl⟩
      split at hresized
      · exact resize_if_needed_provenance c captured resized _ hresized
      · left
        cases hresized
        rfl

/-- C3: on every successful pipeline run with a requested format of
`"png"` or `"jpeg"` (the documented input domain), given that the platform
capture is PNG-encoded and that the PNG/JPEG encoders of the image crate
produce bytes of their own format, the MIME label of the returned data URI
matches the actual encoded format of the base64 payload: `image/jpeg`
exactly for JPEG payloads and `image/png` exactly for PNG payloads. -/
theorem C3_mime_matches_payload (c : ImageCrate) (captured : List Nat)
    (fmt : String) (q : Nat) (mw : Option Nat) (env : Option String)
    (url : String)
    (hcap : c.guess_format captured = some ImageFormat.png)
    (hpnglaw : ∀ i bs, c.encode_png i = some bs →
      c.guess_format bs = some ImageFormat.png)
    (hjpglaw : ∀ i qq bs, c.encode_jpeg i qq = some bs →
      c.guess_format bs = some ImageFormat.jpeg)
    (hfmt : fmt = "png" ∨ fmt = "jpeg")
    (hok : capture_viewport_screenshot c captured fmt q mw env = .ok url) :
    ∃ payload,
      url = "data:" ++ (if fmt = "jpeg" then "image/jpeg" else "image/png") ++
        ";base64," ++ base64Encode payload ∧
      c.guess_format payload =
        some (if fmt = "jpeg" then ImageFormat.jpeg else ImageFormat.png) := by
  obtain ⟨resized, final, hprov, hconv, hurl⟩ :=
    pipeline_success_decomp c captured fmt q mw env url hok
  have hresized_png : c.guess_format resized = some ImageFormat.png := by
    rcases hprov with rfl | ⟨img, henc⟩
    · exact hcap
    · exact hpnglaw img _ henc
  rcases hfmt with hfmt | hfmt
  · subst hfmt
    rcases convert_format_provenance c resized "png" q final hconv with
      ⟨_, heq⟩ | ⟨hne, _⟩
    · subst heq
      refine ⟨_, hurl, ?_⟩
      rw [if_neg (by decide)]
      exact hresized_png
    · exact absurd rfl hne
  · subst hfmt
    rcases convert_format_provenance c resized "jpeg" q final hconv with
      ⟨hpeq, _⟩ | ⟨_, img, henc⟩
    · exact absurd hpeq (by decide)
    · refine ⟨final, hurl, ?_⟩
      rw [if_pos rfl]
      exact hjpglaw img q final henc

/-- C3 witness: a JPEG request on a PNG capture produces a
`data:image/jpeg` URI whose payload bytes are JPEG-tagged. -/
theorem C3_mime_matches_payload_witness :
    ∃ payload,
      ("data:image/jpeg;base64," ++ base64Encode [1, 8, 6] : String) =
        "data:" ++ (if ("jpeg" : String) = "jpeg" then "image/jpeg" else "image/png") ++
          ";base64," ++ base64Encode payload ∧
      sampleCrate.guess_format payload =
        some (if ("jpeg" : String) = "jpeg" then ImageFormat.jpeg else ImageFormat.png) := by
  have hrun : capture_viewport_screenshot sampleCrate [0, 8, 6] "jpeg" 80 none none =
      .ok ("data:image/jpeg;base64," ++ base64Encode [1, 8, 6]) := by
    simp [capture_viewport_screenshot, get_effective_max_width, convert_format,
      convert_to_jpeg, sampleCrate, sampleLoad, sampleEncodeJpeg]
  exact C3_mime_matches_payload sampleCrate [0, 8, 6] "jpeg" 80 none none
    ("data:image/jpeg;base64," ++ base64Encode [1, 8, 6]) (by decide)
    (fun i bs henc => by
      simp only [sampleCrate, sampleEncodePng] at henc
      cases henc
      rfl)
    (fun i qq bs henc => by
      simp only [sampleCrate, sampleEncodeJpeg] at henc
      cases henc
      rfl)
    (Or.inr rfl) hrun

end TauriMcp
